import Mathlib

/-!
Shallow embedding of `src/catapult/chain/ChainSynchronizer.cpp`.

The embedding models the anonymous-namespace classes of that file:
`UnprocessedElements` (the bookkeeping of block ranges handed to the
downstream disruptor pipeline), `RangeAggregator`, the recursive block
pull (`ChainBlocksFrom` / `CompleteChainBlocksFrom`) and the sync round
of `DefaultChainSynchronizer` (gate, chain comparison with its fast
path, verdict dispatch, gate release).

Futures are modelled by values: a remote call that can fail is an
`Except PeerError` value, and the `try`/`catch` blocks of the source
become `match` on that value.  Side effects that the claims observe
(whether the remote comparison was called, the transaction range handed
to the consumer, the block range handed to the pipeline) are returned
explicitly.
-/

namespace Catapult

/-- Embeds `disruptor::CompletionStatus` as the synchronizer observes it. -/
inductive CompletionStatus
  | Normal
  | Aborted
deriving DecidableEq

/-- Embeds `ionet::NodeInteractionResult`. -/
inductive NodeInteractionResult
  | Success
  | Neutral
  | Failure
deriving DecidableEq

/-- Embeds `chain::ChainComparisonCode`: the codes the synchronizer dispatches on,
plus representative further codes that all land in the default branch. -/
inductive ChainComparisonCode
  | Remote_Reported_Equal_Chain_Score
  | Remote_Reported_Lower_Chain_Score
  | Remote_Is_Not_Synced
  | Remote_Is_Forked
  | Remote_Reported_Higher_Score_But_No_Blocks
  | Remote_Returned_Too_Many_Hashes
deriving DecidableEq

/-- A block as the synchronizer observes it: its height and its size in
bytes (the contribution to `BlockRange::totalSize`). -/
structure Block where
  height : Nat
  numBytes : Nat
deriving DecidableEq

/-- Embeds `model::BlockRange`: an ordered sequence of blocks. -/
structure BlockRange where
  blocks : List Block
deriving DecidableEq

/-- Embeds `range.size()`: the number of blocks. -/
def BlockRange.size (r : BlockRange) : Nat :=
  r.blocks.length

/-- Embeds `range.totalSize()`: the total byte size. -/
def BlockRange.totalSize (r : BlockRange) : Nat :=
  (r.blocks.map Block.numBytes).sum

/-- Embeds `range.empty()`. -/
def BlockRange.isEmpty (r : BlockRange) : Bool :=
  r.blocks.isEmpty

/-- Embeds `(--range.cend())->Height`: the height of the last block.  The source
only evaluates this on non-empty ranges; the total extension returns 0 on
the empty range. -/
def BlockRange.endHeight (r : BlockRange) : Nat :=
  ((r.blocks.getLast?).map Block.height).getD 0

/-- Embeds `model::BlockRange::MergeRanges`: concatenation in order. -/
def BlockRange.mergeRanges (rs : List BlockRange) : BlockRange :=
  ⟨(rs.map BlockRange.blocks).flatten⟩

/-- Embeds `ElementInfo { Id, EndHeight, NumBytes }`. -/
structure ElementInfo where
  Id : Nat
  EndHeight : Nat
  NumBytes : Nat
deriving DecidableEq

/-- The guarded state of `UnprocessedElements`: the FIFO queue of element
infos (head of the list = front of the queue), the byte cap `m_maxSize`,
and the counters `m_numBytes`, `m_hasPendingSync`, `m_dirty`. -/
structure UnprocessedElements where
  elements : List ElementInfo
  maxSize : Nat
  numBytes : Nat
  hasPendingSync : Bool
  dirty : Bool
deriving DecidableEq

namespace UnprocessedElements

/-- Embeds `empty()`: true when `numBytes() == 0`. -/
def isEmpty (s : UnprocessedElements) : Bool :=
  s.numBytes == 0

/-- Embeds `hasPendingOperation()`: `0 != m_numBytes || m_hasPendingSync`. -/
def hasPendingOperation (s : UnprocessedElements) : Bool :=
  s.numBytes != 0 || s.hasPendingSync

/-- Embeds `shouldStartSync()`: the atomic test-and-set of `m_hasPendingSync`.
Returns the boolean result together with the updated state. -/
def shouldStartSync (s : UnprocessedElements) : Bool × UnprocessedElements :=
  if s.numBytes ≥ s.maxSize || s.hasPendingSync || s.dirty then
    (false, s)
  else
    (true, { s with hasPendingSync := true })

/-- Embeds `maxHeight()`: `EndHeight` of the back of the queue, `Height(0)` when
the queue is empty. -/
def maxHeight (s : UnprocessedElements) : Nat :=
  ((s.elements.getLast?).map ElementInfo.EndHeight).getD 0

/-- Embeds `add(range)`: refuse when dirty; otherwise record an `ElementInfo`
with the id returned by the block-range consumer, the range's end height
and its total size, grow `m_numBytes`, and enqueue.  The returned
`Option BlockRange` is the range handed to the downstream consumer
(`none` when refused); `newId` is the id the consumer returns. -/
def add (s : UnprocessedElements) (range : BlockRange) (newId : Nat) :
    Bool × UnprocessedElements × Option BlockRange :=
  if s.dirty then
    (false, s, none)
  else
    let info : ElementInfo := ⟨newId, range.endHeight, range.totalSize⟩
    (true,
     { s with elements := s.elements ++ [info], numBytes := s.numBytes + info.NumBytes },
     some range)

/-- Errors of `remove`: the source throws an invalid-argument error on an
id mismatch, and reading the front of an empty queue is undefined in the
source, modelled as the explicit `emptyQueue` error. -/
inductive RemoveError
  | emptyQueue
  | unexpectedElementId (id : Nat)
deriving DecidableEq

/-- Embeds `remove(id, status)`: check the front of the queue against `id`,
drop it, shrink `m_numBytes` by its size, and recompute
`m_dirty = hasPendingOperation() && CompletionStatus::Normal != status`
on the popped state. -/
def remove (s : UnprocessedElements) (id : Nat) (status : CompletionStatus) :
    Except RemoveError UnprocessedElements :=
  match s.elements with
  | [] => .error .emptyQueue
  | info :: rest =>
    if info.Id != id then
      .error (.unexpectedElementId id)
    else
      let popped : UnprocessedElements :=
        { s with elements := rest, numBytes := s.numBytes - info.NumBytes }
      .ok { popped with dirty := popped.hasPendingOperation && status != .Normal }

/-- Embeds `clearPendingSync()`: drop the pending-sync flag and, when dirty,
recompute `m_dirty = hasPendingOperation()` on the updated state. -/
def clearPendingSync (s : UnprocessedElements) : UnprocessedElements :=
  let cleared : UnprocessedElements := { s with hasPendingSync := false }
  if cleared.dirty then { cleared with dirty := cleared.hasPendingOperation }
  else cleared

end UnprocessedElements

/-- Embeds `RangeAggregator`: the per-round accumulator of pulled ranges. -/
structure RangeAggregator where
  numBlocks : Nat
  ranges : List BlockRange
deriving DecidableEq

namespace RangeAggregator

/-- Embeds `RangeAggregator::add`: grow the block count and push the range. -/
def add (a : RangeAggregator) (range : BlockRange) : RangeAggregator :=
  { numBlocks := a.numBlocks + range.size, ranges := a.ranges ++ [range] }

/-- Embeds `RangeAggregator::merge`. -/
def merge (a : RangeAggregator) : BlockRange :=
  BlockRange.mergeRanges a.ranges

/-- Embeds `RangeAggregator::empty`: `0 == m_numBlocks`. -/
def isEmpty (a : RangeAggregator) : Bool :=
  a.numBlocks == 0

end RangeAggregator

/-- The aggregator the sync round starts with (`make_shared<RangeAggregator>()`
value-initializes `m_numBlocks` to zero). -/
def emptyAggregator : RangeAggregator :=
  ⟨0, []⟩

/-- An error raised by a remote peer call (a rejected future). -/
structure PeerError where
  code : Nat
deriving DecidableEq

/-- Embeds `CompareChainsResult`. -/
structure CompareChainsResult where
  Code : ChainComparisonCode
  CommonBlockHeight : Nat
  ForkDepth : Nat
deriving DecidableEq

/-- The remote peer's API surface as the sync round consumes it: the
chain-comparison interaction, `blocksFrom` and `unconfirmedTransactions`.
Each call is a value of `Except PeerError`, modelling a future that the
source reads inside a `try`/`catch`. -/
structure RemoteApi where
  remoteCompareChains : Except PeerError CompareChainsResult
  blocksFrom : Nat → Except PeerError BlockRange
  unconfirmedTransactions : List Nat → Except PeerError (List Nat)

/-- Embeds `ToNodeInteractionResult`: equal or lower reported chain score is
`Neutral`, every other code is `Failure`. -/
def toNodeInteractionResult : ChainComparisonCode → NodeInteractionResult
  | .Remote_Reported_Equal_Chain_Score => .Neutral
  | .Remote_Reported_Lower_Chain_Score => .Neutral
  | _ => .Failure

/-- Embeds `CompleteChainBlocksFrom`: an empty aggregator resolves `Neutral`;
otherwise the merged range goes to `UnprocessedElements::add`, resolving
`Success` when admitted and `Neutral` when refused.  The third component
is the range handed to the downstream consumer, if any. -/
def completeChainBlocksFrom (agg : RangeAggregator) (u : UnprocessedElements)
    (newId : Nat) : NodeInteractionResult × UnprocessedElements × Option BlockRange :=
  if agg.isEmpty then
    (.Neutral, u, none)
  else
    let added := u.add agg.merge newId
    (if added.1 then .Success else .Neutral, added.2.1, added.2.2)

/-- Embeds `ChainBlocksFrom`: the recursive pull loop.  A rejected future is
caught and resolves `Failure`; an empty reply completes; a non-empty
reply is appended to the aggregator, completing once
`forkDepth <= aggregator.numBlocks()` and otherwise requesting from the
reply's end height + 1. -/
def chainBlocksFrom (futureSupplier : Nat → Except PeerError BlockRange)
    (height : Nat) (forkDepth : Nat) (agg : RangeAggregator)
    (u : UnprocessedElements) (newId : Nat) :
    NodeInteractionResult × UnprocessedElements × Option BlockRange :=
  match futureSupplier height with
  | .error _ => (.Failure, u, none)
  | .ok range =>
    if hr : range.blocks = [] then
      completeChainBlocksFrom agg u newId
    else
      let endHeight := range.endHeight
      let agg2 := agg.add range
      if hd : forkDepth ≤ agg2.numBlocks then
        completeChainBlocksFrom agg2 u newId
      else
        chainBlocksFrom futureSupplier (endHeight + 1) forkDepth agg2 u newId
termination_by forkDepth - agg.numBlocks
decreasing_by
  have hlen : 1 ≤ range.blocks.length := by
    cases hb : range.blocks with
    | nil => exact absurd hb hr
    | cons a l => simp
  unfold agg2 at hd
  simp only [RangeAggregator.add, BlockRange.size] at hd ⊢
  omega

/-- Embeds `DefaultChainSynchronizer::compareChains`: a real comparison when no
unprocessed elements exist, else the synthesized
`{ Remote_Is_Not_Synced, maxHeight(), 0 }` result.  The boolean records
whether the remote comparison was called. -/
def compareChainsStep (remote : RemoteApi) (u : UnprocessedElements) :
    Except PeerError CompareChainsResult × Bool :=
  if u.isEmpty then
    (remote.remoteCompareChains, true)
  else
    (.ok ⟨.Remote_Is_Not_Synced, u.maxHeight, 0⟩, false)

/-- Embeds `DefaultChainSynchronizer::syncWithPeer`: dispatch on the comparison
verdict.  Returns the interaction result, the updated unprocessed state,
the transaction range forwarded to the transaction consumer (if any) and
the block range handed to the pipeline (if any). -/
def syncWithPeer (remote : RemoteApi) (shortHashes : List Nat) (newId : Nat)
    (compareResult : CompareChainsResult) (u : UnprocessedElements) :
    NodeInteractionResult × UnprocessedElements × Option (List Nat) × Option BlockRange :=
  match compareResult.Code with
  | .Remote_Reported_Equal_Chain_Score =>
    match remote.unconfirmedTransactions shortHashes with
    | .ok txRange => (.Neutral, u, some txRange, none)
    | .error _ => (.Failure, u, none, none)
  | .Remote_Is_Not_Synced =>
    let pulled := chainBlocksFrom remote.blocksFrom (compareResult.CommonBlockHeight + 1)
      compareResult.ForkDepth emptyAggregator u newId
    (pulled.1, pulled.2.1, none, pulled.2.2)
  | code => (toNodeInteractionResult code, u, none, none)

/-- The observable side effects of one sync round: whether the remote
chain comparison was invoked, the transaction range forwarded to the
transaction consumer, and the block range handed to the pipeline. -/
structure SyncEffects where
  comparisonCalled : Bool
  consumedTransactions : Option (List Nat)
  handedRange : Option BlockRange
deriving DecidableEq

/-- Embeds `DefaultChainSynchronizer::operator()`: gate on `shouldStartSync`,
compare (or synthesize), dispatch, demote comparison errors to `Failure`,
and release the gate with `clearPendingSync` on every path past the
gate. -/
def synchronize (remote : RemoteApi) (shortHashes : List Nat) (newId : Nat)
    (u : UnprocessedElements) : NodeInteractionResult × UnprocessedElements × SyncEffects :=
  match u.shouldStartSync with
  | (false, u1) => (.Neutral, u1, ⟨false, none, none⟩)
  | (true, u1) =>
    match compareChainsStep remote u1 with
    | (.error _, called) => (.Failure, u1.clearPendingSync, ⟨called, none, none⟩)
    | (.ok compareResult, called) =>
      let synced := syncWithPeer remote shortHashes newId compareResult u1
      (synced.1, synced.2.1.clearPendingSync, ⟨called, synced.2.2.1, synced.2.2.2⟩)

/-- Embeds `ChainSynchronizerConfiguration`. -/
structure ChainSynchronizerConfiguration where
  MaxBlocksPerSyncAttempt : Nat
  MaxChainBytesPerSyncAttempt : Nat
  MaxRollbackBlocks : Nat
deriving DecidableEq

/-- The `UnprocessedElements` state built by the `DefaultChainSynchronizer`
constructor: empty, with byte cap `3 * MaxChainBytesPerSyncAttempt`. -/
def initialUnprocessedElements (config : ChainSynchronizerConfiguration) :
    UnprocessedElements :=
  { elements := []
    maxSize := 3 * config.MaxChainBytesPerSyncAttempt
    numBytes := 0
    hasPendingSync := false
    dirty := false }

/-- One operation on the shared `UnprocessedElements` state, as issued by
the sync round's continuations and the pipeline's completion callbacks. -/
inductive UEOp
  | opShouldStartSync
  | opClearPendingSync
  | opAdd (range : BlockRange) (newId : Nat)
  | opRemove (id : Nat) (status : CompletionStatus)
deriving DecidableEq

/-- Apply one operation; `none` when the operation faults (a `remove` on
an unexpected id or an empty queue). -/
def applyOp (s : UnprocessedElements) : UEOp → Option UnprocessedElements
  | .opShouldStartSync => some s.shouldStartSync.2
  | .opClearPendingSync => some s.clearPendingSync
  | .opAdd range newId => some (s.add range newId).2.1
  | .opRemove id status => (s.remove id status).toOption

/-- Run a sequence of operations from a state. -/
def runOps (s : UnprocessedElements) : List UEOp → Option UnprocessedElements
  | [] => some s
  | op :: ops =>
    match applyOp s op with
    | none => none
    | some s2 => runOps s2 ops

/-- The byte-accounting invariant of `UnprocessedElements`:
`m_numBytes` is the sum of the `NumBytes` fields over the queue. -/
def bytesInvariant (s : UnprocessedElements) : Prop :=
  s.numBytes = (s.elements.map ElementInfo.NumBytes).sum

instance (s : UnprocessedElements) : Decidable (bytesInvariant s) := by
  unfold bytesInvariant
  infer_instance

/-- Claim C4: `shouldStartSync` returns true and sets `hasPendingSync`
exactly when `numBytes < maxSize`, no sync is pending and the state is
not dirty; in every other case — including `numBytes = maxSize` exactly —
it returns false and leaves the state unchanged; and the synchronizer
constructor fixes `maxSize = 3 * MaxChainBytesPerSyncAttempt`. -/
theorem shouldStartSync_gate (s : UnprocessedElements) :
    (s.numBytes < s.maxSize ∧ s.hasPendingSync = false ∧ s.dirty = false →
      s.shouldStartSync = (true, { s with hasPendingSync := true })) ∧
    (¬(s.numBytes < s.maxSize ∧ s.hasPendingSync = false ∧ s.dirty = false) →
      s.shouldStartSync = (false, s)) ∧
    (s.numBytes = s.maxSize → s.shouldStartSync = (false, s)) ∧
    (∀ config : ChainSynchronizerConfiguration,
      (initialUnprocessedElements config).maxSize = 3 * config.MaxChainBytesPerSyncAttempt) := by
  refine ⟨?_, ?_, ?_, fun _ => rfl⟩
  · rintro ⟨h1, h2, h3⟩
    have hle : ¬ s.numBytes ≥ s.maxSize := by omega
    simp [UnprocessedElements.shouldStartSync, h2, h3, hle]
  · intro hcond
    by_cases h1 : s.numBytes ≥ s.maxSize
    · simp [UnprocessedElements.shouldStartSync, h1]
    · by_cases h2 : s.hasPendingSync
      · simp [UnprocessedElements.shouldStartSync, h2]
      · by_cases h3 : s.dirty
        · simp [UnprocessedElements.shouldStartSync, h3]
        · exact absurd ⟨by omega, by simpa using h2, by simpa using h3⟩ hcond
  · intro heq
    have hge : s.numBytes ≥ s.maxSize := by omega
    simp [UnprocessedElements.shouldStartSync, hge]

/-- Witness for C4 at a concrete state. -/
theorem shouldStartSync_gate_witness :
    (⟨[], 10, 0, false, false⟩ : UnprocessedElements).shouldStartSync =
      (true, ⟨[], 10, 0, true, false⟩) :=
  (shouldStartSync_gate ⟨[], 10, 0, false, false⟩).1 ⟨by decide, rfl, rfl⟩

/-- Claim C5: on a non-empty queue, `remove` fails with the
invalid-argument error exactly when the head id differs from `id`; on a
matching id it pops the head, shrinks `numBytes` by the head's recorded
size, and sets `dirty` to (the popped state has a pending operation) and
(the status is not Normal). -/
theorem remove_head_check (s : UnprocessedElements) (info : ElementInfo)
    (rest : List ElementInfo) (id : Nat) (status : CompletionStatus)
    (hq : s.elements = info :: rest) :
    (info.Id ≠ id → s.remove id status = .error (.unexpectedElementId id)) ∧
    (info.Id = id → s.remove id status = .ok
      { s with
        elements := rest
        numBytes := s.numBytes - info.NumBytes
        dirty := ((s.numBytes - info.NumBytes != 0) || s.hasPendingSync)
          && (status != .Normal) }) := by
  constructor
  · intro hne
    simp [UnprocessedElements.remove, hq, hne]
  · intro heq
    simp [UnprocessedElements.remove, hq, heq, UnprocessedElements.hasPendingOperation]

/-- Witness for C5 at a concrete state. -/
theorem remove_head_check_witness :
    ((⟨[⟨7, 3, 5⟩], 10, 5, false, false⟩ : UnprocessedElements).remove 9 .Normal =
        .error (.unexpectedElementId 9)) ∧
    ((⟨[⟨7, 3, 5⟩], 10, 5, false, false⟩ : UnprocessedElements).remove 7 .Aborted =
        .ok ⟨[], 10, 0, false, false⟩) :=
  ⟨(remove_head_check ⟨[⟨7, 3, 5⟩], 10, 5, false, false⟩ ⟨7, 3, 5⟩ [] 9 .Normal rfl).1
      (by decide),
   (remove_head_check ⟨[⟨7, 3, 5⟩], 10, 5, false, false⟩ ⟨7, 3, 5⟩ [] 7 .Aborted rfl).2 rfl⟩

/-- Claim C6: `add` returns false exactly when the state is dirty,
leaving everything unchanged; otherwise it enqueues an element carrying
the fresh id, the range's last block height and its total byte size,
grows `numBytes`, hands the range to the downstream consumer, and
returns true — with no byte-cap check, so the call succeeds even when
`numBytes` already reached `maxSize`. -/
theorem add_admission (s : UnprocessedElements) (range : BlockRange) (newId : Nat) :
    (s.dirty = true → s.add range newId = (false, s, none)) ∧
    (s.dirty = false → s.add range newId =
      (true,
       { s with
         elements := s.elements ++ [⟨newId, range.endHeight, range.totalSize⟩]
         numBytes := s.numBytes + range.totalSize },
       some range)) ∧
    (∀ b bs, range.blocks = bs ++ [b] → range.endHeight = b.height) ∧
    (s.dirty = false → s.maxSize ≤ s.numBytes → (s.add range newId).1 = true) := by
  refine ⟨?_, ?_, ?_, ?_⟩
  · intro hd
    simp [UnprocessedElements.add, hd]
  · intro hd
    simp [UnprocessedElements.add, hd]
  · intro b bs hb
    simp [BlockRange.endHeight, hb]
  · intro hd _
    simp [UnprocessedElements.add, hd]

/-- Witness for C6 at a concrete state whose byte count already exceeds
the cap. -/
theorem add_admission_witness :
    (⟨[], 10, 12, false, false⟩ : UnprocessedElements).add ⟨[⟨4, 6⟩]⟩ 2 =
      (true, ⟨[⟨2, 4, 6⟩], 10, 18, false, false⟩, some ⟨[⟨4, 6⟩]⟩) :=
  (add_admission ⟨[], 10, 12, false, false⟩ ⟨[⟨4, 6⟩]⟩ 2).2.1 rfl

/-- Claim C10: `remove` reads the head of the queue, so the embedding
makes the head access total by returning the `emptyQueue` error on an
empty queue, and that error branch is unreachable whenever the completion
callback fires while its element is still queued (the queue non-empty). -/
theorem remove_empty_queue (s : UnprocessedElements) (id : Nat)
    (status : CompletionStatus) :
    (s.elements = [] → s.remove id status = .error .emptyQueue) ∧
    (s.elements ≠ [] → s.remove id status ≠ .error .emptyQueue) := by
  constructor
  · intro hq
    simp [UnprocessedElements.remove, hq]
  · intro hq
    rcases hcons : s.elements with _ | ⟨info, rest⟩
    · exact absurd hcons hq
    · by_cases hid : info.Id != id
      · simp [UnprocessedElements.remove, hcons, hid]
      · simp [UnprocessedElements.remove, hcons, hid]

/-- Witness for C10 at concrete states. -/
theorem remove_empty_queue_witness :
    ((⟨[], 10, 0, false, false⟩ : UnprocessedElements).remove 1 .Normal =
        .error .emptyQueue) ∧
    ((⟨[⟨1, 2, 3⟩], 10, 3, false, false⟩ : UnprocessedElements).remove 1 .Normal ≠
        .error .emptyQueue) :=
  ⟨(remove_empty_queue ⟨[], 10, 0, false, false⟩ 1 .Normal).1 rfl,
   (remove_empty_queue ⟨[⟨1, 2, 3⟩], 10, 3, false, false⟩ 1 .Normal).2 (by decide)⟩

/-- One step of any operation preserves the byte-accounting invariant. -/
lemma applyOp_preserves_bytesInvariant (s s2 : UnprocessedElements) (op : UEOp)
    (hinv : bytesInvariant s) (h : applyOp s op = some s2) : bytesInvariant s2 := by
  cases op with
  | opShouldStartSync =>
    simp only [applyOp, Option.some.injEq] at h
    subst h
    unfold UnprocessedElements.shouldStartSync
    split <;> exact hinv
  | opClearPendingSync =>
    simp only [applyOp, Option.some.injEq] at h
    subst h
    unfold UnprocessedElements.clearPendingSync
    dsimp only
    split <;> exact hinv
  | opAdd range newId =>
    simp only [applyOp, Option.some.injEq] at h
    subst h
    unfold UnprocessedElements.add
    split
    · exact hinv
    · unfold bytesInvariant at hinv ⊢
      simp [hinv]
  | opRemove id status =>
    simp only [applyOp] at h
    unfold UnprocessedElements.remove at h
    rcases hq : s.elements with _ | ⟨info, rest⟩
    · simp [hq, Except.toOption] at h
    · rw [hq] at h
      by_cases hid : info.Id != id
      · simp [hid, Except.toOption] at h
      · simp [hid, Except.toOption] at h
        subst h
        unfold bytesInvariant at hinv ⊢
        rw [hq] at hinv
        simp only [List.map_cons, List.sum_cons] at hinv
        dsimp only
        omega

/-- Running any operation sequence preserves the byte-accounting
invariant. -/
lemma runOps_preserves_bytesInvariant (ops : List UEOp) :
    ∀ s s2 : UnprocessedElements, bytesInvariant s → runOps s ops = some s2 →
      bytesInvariant s2 := by
  induction ops with
  | nil =>
    intro s s2 hinv h
    simp only [runOps, Option.some.injEq] at h
    subst h
    exact hinv
  | cons op ops ih =>
    intro s s2 hinv h
    simp only [runOps] at h
    rcases hstep : applyOp s op with _ | s1
    · rw [hstep] at h
      simp at h
    · rw [hstep] at h
      exact ih s1 s2 (applyOp_preserves_bytesInvariant s s1 op hinv hstep) h

/-- Claim C7: from the initial state, `numBytes` always equals the sum of
the `NumBytes` fields over the queue: the invariant holds initially, each
operation preserves it, and hence every reachable state satisfies it. -/
theorem numBytes_matches_queue (config : ChainSynchronizerConfiguration) :
    bytesInvariant (initialUnprocessedElements config) ∧
    (∀ (s s2 : UnprocessedElements) (op : UEOp),
      bytesInvariant s → applyOp s op = some s2 → bytesInvariant s2) ∧
    (∀ (ops : List UEOp) (s : UnprocessedElements),
      runOps (initialUnprocessedElements config) ops = some s → bytesInvariant s) := by
  refine ⟨rfl, applyOp_preserves_bytesInvariant, ?_⟩
  intro ops s h
  exact runOps_preserves_bytesInvariant ops (initialUnprocessedElements config) s rfl h

/-- Witness for C7: the invariant at a concrete state reached by a
concrete operation sequence. -/
theorem numBytes_matches_queue_witness :
    bytesInvariant ⟨[⟨1, 4, 6⟩], 6, 6, false, false⟩ :=
  (numBytes_matches_queue ⟨1, 2, 3⟩).2.2 [.opAdd ⟨[⟨4, 6⟩]⟩ 1]
    ⟨[⟨1, 4, 6⟩], 6, 6, false, false⟩ rfl

/-- Claim C1 counterexample: a concrete sequence in which a remove with
`Aborted` status while operations are pending sets `dirty`, but a later
remove with `Normal` status clears `dirty` while `numBytes = 5 ≠ 0` —
before the quiescence point the claim requires. -/
theorem dirty_not_persistent_counterexample :
    runOps (initialUnprocessedElements ⟨5, 40, 10⟩)
        [.opAdd ⟨[⟨1, 5⟩]⟩ 1, .opAdd ⟨[⟨2, 5⟩]⟩ 2, .opAdd ⟨[⟨3, 5⟩]⟩ 3,
         .opRemove 1 .Aborted] =
      some ⟨[⟨2, 2, 5⟩, ⟨3, 3, 5⟩], 120, 10, false, true⟩ ∧
    runOps (initialUnprocessedElements ⟨5, 40, 10⟩)
        [.opAdd ⟨[⟨1, 5⟩]⟩ 1, .opAdd ⟨[⟨2, 5⟩]⟩ 2, .opAdd ⟨[⟨3, 5⟩]⟩ 3,
         .opRemove 1 .Aborted, .opRemove 2 .Normal] =
      some ⟨[⟨3, 3, 5⟩], 120, 5, false, false⟩ := by
  exact ⟨rfl, rfl⟩

/-- Claim C1 (amended): a remove sets `dirty` exactly to (a pending
operation remains after the pop) and (the status is non-Normal) — so a
non-Normal remove with work still pending raises `dirty`, but a later
Normal remove lowers it even before quiescence; `add` and
`shouldStartSync` leave a dirty state unchanged; `clearPendingSync`
lowers `dirty` exactly when `numBytes = 0`. -/
theorem dirty_dynamics (s : UnprocessedElements) (range : BlockRange)
    (newId id : Nat) (status : CompletionStatus) (info : ElementInfo)
    (rest : List ElementInfo) :
    (s.elements = info :: rest → info.Id = id →
      s.remove id status = .ok
        { s with
          elements := rest
          numBytes := s.numBytes - info.NumBytes
          dirty := ((s.numBytes - info.NumBytes != 0) || s.hasPendingSync)
            && (status != .Normal) }) ∧
    (s.dirty = true → (s.add range newId).2.1 = s ∧ s.shouldStartSync.2 = s) ∧
    s.clearPendingSync.dirty = (s.dirty && (s.numBytes != 0)) := by
  refine ⟨?_, ?_, ?_⟩
  · intro hq heq
    exact (remove_head_check s info rest id status hq).2 heq
  · intro hd
    constructor
    · simp [UnprocessedElements.add, hd]
    · simp [UnprocessedElements.shouldStartSync, hd]
  · unfold UnprocessedElements.clearPendingSync
    rcases hd : s.dirty with _ | _
    · simp [hd]
    · simp [hd, UnprocessedElements.hasPendingOperation]

/-- Witness for the amended C1 at a concrete dirty state. -/
theorem dirty_dynamics_witness :
    ((⟨[⟨2, 2, 5⟩], 120, 5, true, false⟩ : UnprocessedElements).remove 2 .Normal =
        .ok ⟨[], 120, 0, true, false⟩) ∧
    ((⟨[⟨3, 3, 5⟩], 120, 5, false, true⟩ : UnprocessedElements).add ⟨[⟨9, 9⟩]⟩ 4).2.1 =
        ⟨[⟨3, 3, 5⟩], 120, 5, false, true⟩ :=
  ⟨(dirty_dynamics ⟨[⟨2, 2, 5⟩], 120, 5, true, false⟩ ⟨[]⟩ 0 2 .Normal ⟨2, 2, 5⟩ []).1
      rfl rfl,
   ((dirty_dynamics ⟨[⟨3, 3, 5⟩], 120, 5, false, true⟩ ⟨[⟨9, 9⟩]⟩ 4 0 .Normal
      ⟨0, 0, 0⟩ []).2.1 rfl).1⟩

/-- Claim C3: one step of the pull loop — a rejected request resolves
`Failure`; an empty reply completes with the current aggregator; a
non-empty reply is appended and completes once the block count reaches
the fork depth (in particular immediately when the fork depth is 0), and
otherwise the loop continues from the reply's end height + 1; completion
resolves `Neutral` on an empty aggregator, and otherwise hands the
merged range to `add`, resolving `Success` when admitted and `Neutral`
when refused. -/
theorem pull_loop_spec (supplier : Nat → Except PeerError BlockRange)
    (h d : Nat) (agg : RangeAggregator) (u : UnprocessedElements) (newId : Nat) :
    (∀ e, supplier h = .error e →
      chainBlocksFrom supplier h d agg u newId = (.Failure, u, none)) ∧
    (∀ r, supplier h = .ok r → r.blocks = [] →
      chainBlocksFrom supplier h d agg u newId = completeChainBlocksFrom agg u newId) ∧
    (∀ r, supplier h = .ok r → r.blocks ≠ [] → d ≤ agg.numBlocks + r.size →
      chainBlocksFrom supplier h d agg u newId =
        completeChainBlocksFrom (agg.add r) u newId) ∧
    (∀ r, supplier h = .ok r → r.blocks ≠ [] → agg.numBlocks + r.size < d →
      chainBlocksFrom supplier h d agg u newId =
        chainBlocksFrom supplier (r.endHeight + 1) d (agg.add r) u newId) ∧
    (∀ r, supplier h = .ok r → r.blocks ≠ [] →
      chainBlocksFrom supplier h 0 agg u newId =
        completeChainBlocksFrom (agg.add r) u newId) ∧
    (agg.isEmpty = true → completeChainBlocksFrom agg u newId = (.Neutral, u, none)) ∧
    (agg.isEmpty = false → completeChainBlocksFrom agg u newId =
      (if (u.add agg.merge newId).1 then .Success else .Neutral,
       (u.add agg.merge newId).2.1, (u.add agg.merge newId).2.2)) := by
  have hreach : ∀ (d2 : Nat) (r : BlockRange), supplier h = .ok r → r.blocks ≠ [] →
      d2 ≤ agg.numBlocks + r.size →
      chainBlocksFrom supplier h d2 agg u newId =
        completeChainBlocksFrom (agg.add r) u newId := by
    intro d2 r hr hne hd2
    have hd2b : d2 ≤ (agg.add r).numBlocks := by
      simp only [RangeAggregator.add, BlockRange.size] at hd2 ⊢
      omega
    rw [chainBlocksFrom, hr]
    simp only [hne, hd2b, dite_true, dite_false]
  refine ⟨?_, ?_, fun r hr hne hd2 => hreach d r hr hne hd2,
    ?_, fun r hr hne => hreach 0 r hr hne (Nat.zero_le _), ?_, ?_⟩
  · intro e he
    rw [chainBlocksFrom, he]
  · intro r hr he
    rw [chainBlocksFrom, hr]
    simp [he]
  · intro r hr hne hd2
    have hd2c : ¬ d ≤ (agg.add r).numBlocks := by
      simp only [RangeAggregator.add, BlockRange.size] at hd2 ⊢
      omega
    rw [chainBlocksFrom, hr]
    simp only [hne, hd2c, dite_true, dite_false]
  · intro hae
    simp [completeChainBlocksFrom, hae]
  · intro hae
    simp [completeChainBlocksFrom, hae]

/-- Witness for C3: with fork depth 0, a single non-empty reply completes
immediately. -/
theorem pull_loop_spec_witness :
    chainBlocksFrom (fun _ => Except.ok (⟨[⟨101, 4⟩]⟩ : BlockRange)) 101 0
        emptyAggregator (initialUnprocessedElements ⟨5, 40, 10⟩) 1 =
      completeChainBlocksFrom (emptyAggregator.add ⟨[⟨101, 4⟩]⟩)
        (initialUnprocessedElements ⟨5, 40, 10⟩) 1 :=
  (pull_loop_spec (fun _ => Except.ok ⟨[⟨101, 4⟩]⟩) 101 0 emptyAggregator
      (initialUnprocessedElements ⟨5, 40, 10⟩) 1).2.2.2.2.1 ⟨[⟨101, 4⟩]⟩ rfl
    (by decide)

/-- Claim C2: the sync round resolves `Neutral` immediately when the gate
refuses; otherwise it dispatches on the comparison verdict — an equal
reported chain score requests the peer's unconfirmed transactions with
the short-hash set, forwards them and resolves `Neutral` (`Failure` on
error); a lower reported score resolves `Neutral`; not-synced runs the
block pull from the common height + 1 with the given fork depth and
returns its result; every other code resolves `Failure`. -/
theorem synchronize_dispatch (remote : RemoteApi) (shortHashes : List Nat)
    (newId : Nat) (u : UnprocessedElements) :
    (∀ u1, u.shouldStartSync = (false, u1) →
      synchronize remote shortHashes newId u = (.Neutral, u1, ⟨false, none, none⟩)) ∧
    (∀ u1 compareResult called, u.shouldStartSync = (true, u1) →
      compareChainsStep remote u1 = (.ok compareResult, called) →
      ((compareResult.Code = .Remote_Reported_Equal_Chain_Score →
        (∀ txs, remote.unconfirmedTransactions shortHashes = .ok txs →
          synchronize remote shortHashes newId u =
            (.Neutral, u1.clearPendingSync, ⟨called, some txs, none⟩)) ∧
        (∀ e, remote.unconfirmedTransactions shortHashes = .error e →
          synchronize remote shortHashes newId u =
            (.Failure, u1.clearPendingSync, ⟨called, none, none⟩))) ∧
      (compareResult.Code = .Remote_Reported_Lower_Chain_Score →
        synchronize remote shortHashes newId u =
          (.Neutral, u1.clearPendingSync, ⟨called, none, none⟩)) ∧
      (compareResult.Code = .Remote_Is_Not_Synced →
        synchronize remote shortHashes newId u =
          ((chainBlocksFrom remote.blocksFrom (compareResult.CommonBlockHeight + 1)
              compareResult.ForkDepth emptyAggregator u1 newId).1,
           (chainBlocksFrom remote.blocksFrom (compareResult.CommonBlockHeight + 1)
              compareResult.ForkDepth emptyAggregator u1 newId).2.1.clearPendingSync,
           ⟨called, none,
            (chainBlocksFrom remote.blocksFrom (compareResult.CommonBlockHeight + 1)
              compareResult.ForkDepth emptyAggregator u1 newId).2.2⟩)) ∧
      (compareResult.Code ≠ .Remote_Reported_Equal_Chain_Score →
        compareResult.Code ≠ .Remote_Reported_Lower_Chain_Score →
        compareResult.Code ≠ .Remote_Is_Not_Synced →
        synchronize remote shortHashes newId u =
          (.Failure, u1.clearPendingSync, ⟨called, none, none⟩)))) := by
  constructor
  · intro u1 hsss
    unfold synchronize
    rw [hsss]
  · intro u1 compareResult called hsss hcmp
    refine ⟨?_, ?_, ?_, ?_⟩
    · intro hcode
      constructor
      · intro txs htx
        unfold synchronize syncWithPeer
        simp only [hsss, hcmp, hcode, htx]
      · intro e htx
        unfold synchronize syncWithPeer
        simp only [hsss, hcmp, hcode, htx]
    · intro hcode
      unfold synchronize syncWithPeer
      simp only [hsss, hcmp, hcode, toNodeInteractionResult]
    · intro hcode
      unfold synchronize syncWithPeer
      simp only [hsss, hcmp, hcode]
    · intro hne hnl hnn
      unfold synchronize syncWithPeer
      simp only [hsss, hcmp]
      cases hc : compareResult.Code <;> simp_all [toNodeInteractionResult]

/-- Witness for C2: a lower reported chain score resolves `Neutral`. -/
theorem synchronize_dispatch_witness :
    synchronize
        ⟨.ok ⟨.Remote_Reported_Lower_Chain_Score, 0, 0⟩, fun _ => .ok ⟨[]⟩,
          fun _ => .ok []⟩ [] 1 (initialUnprocessedElements ⟨1, 2, 3⟩) =
      (.Neutral, initialUnprocessedElements ⟨1, 2, 3⟩, ⟨true, none, none⟩) :=
  ((synchronize_dispatch
      ⟨.ok ⟨.Remote_Reported_Lower_Chain_Score, 0, 0⟩, fun _ => .ok ⟨[]⟩,
        fun _ => .ok []⟩ [] 1 (initialUnprocessedElements ⟨1, 2, 3⟩)).2
    ⟨[], 6, 0, true, false⟩ ⟨.Remote_Reported_Lower_Chain_Score, 0, 0⟩ true
    rfl rfl).2.1 rfl

/-- Claim C8: when unprocessed elements exist, the comparison step makes
no remote call and synthesizes `{ Remote_Is_Not_Synced, maxHeight(), 0 }`;
a sync round that passes the gate in such a state never invokes the
remote comparison. -/
theorem comparison_fast_path (remote : RemoteApi) (shortHashes : List Nat)
    (newId : Nat) (u : UnprocessedElements) :
    (u.isEmpty = false →
      compareChainsStep remote u =
        (.ok ⟨.Remote_Is_Not_Synced, u.maxHeight, 0⟩, false)) ∧
    (u.isEmpty = true → compareChainsStep remote u = (remote.remoteCompareChains, true)) ∧
    (∀ u1, u.shouldStartSync = (true, u1) → u.isEmpty = false →
      (synchronize remote shortHashes newId u).2.2.comparisonCalled = false) := by
  refine ⟨?_, ?_, ?_⟩
  · intro hne
    simp [compareChainsStep, hne]
  · intro he
    simp [compareChainsStep, he]
  · intro u1 hsss hne
    have hnum : u1.numBytes = u.numBytes := by
      unfold UnprocessedElements.shouldStartSync at hsss
      split at hsss
      · simp at hsss
      · rw [Prod.mk.injEq] at hsss
        rw [← hsss.2]
    have hne1 : u1.isEmpty = false := by
      unfold UnprocessedElements.isEmpty at hne ⊢
      rw [hnum]
      exact hne
    have hcmp : compareChainsStep remote u1 =
        (.ok ⟨.Remote_Is_Not_Synced, u1.maxHeight, 0⟩, false) := by
      simp [compareChainsStep, hne1]
    unfold synchronize
    simp only [hsss, hcmp]

/-- Witness for C8: a non-empty state synthesizes the comparison and the
round records no remote comparison call. -/
theorem comparison_fast_path_witness :
    (synchronize
        ⟨.ok ⟨.Remote_Reported_Lower_Chain_Score, 0, 0⟩, fun _ => .ok ⟨[]⟩,
          fun _ => .ok []⟩ [] 1
        ⟨[⟨1, 5, 4⟩], 120, 4, false, false⟩).2.2.comparisonCalled = false :=
  (comparison_fast_path
      ⟨.ok ⟨.Remote_Reported_Lower_Chain_Score, 0, 0⟩, fun _ => .ok ⟨[]⟩,
        fun _ => .ok []⟩ [] 1 ⟨[⟨1, 5, 4⟩], 120, 4, false, false⟩).2.2
    ⟨[⟨1, 5, 4⟩], 120, 4, true, false⟩ rfl rfl

/-- Claim C9: peer-sourced errors are demoted to `Failure` inside the
round — a failed chain comparison makes the round resolve `Failure` (with
the gate still released), a failed unconfirmed-transactions request makes
the dispatch resolve `Failure`, and a failed block request makes the pull
resolve `Failure`; the round always yields a plain result, never an
error. -/
theorem peer_errors_demoted (remote : RemoteApi) (shortHashes : List Nat)
    (newId : Nat) (u : UnprocessedElements) :
    (∀ u1 e called, u.shouldStartSync = (true, u1) →
      compareChainsStep remote u1 = (.error e, called) →
      synchronize remote shortHashes newId u =
        (.Failure, u1.clearPendingSync, ⟨called, none, none⟩)) ∧
    (∀ compareResult e, compareResult.Code = .Remote_Reported_Equal_Chain_Score →
      remote.unconfirmedTransactions shortHashes = .error e →
      syncWithPeer remote shortHashes newId compareResult u =
        (.Failure, u, none, none)) ∧
    (∀ height d agg e, remote.blocksFrom height = .error e →
      chainBlocksFrom remote.blocksFrom height d agg u newId =
        (.Failure, u, none)) := by
  refine ⟨?_, ?_, ?_⟩
  · intro u1 e called hsss hcmp
    unfold synchronize
    simp only [hsss, hcmp]
  · intro compareResult e hcode htx
    unfold syncWithPeer
    simp only [hcode, htx]
  · intro height d agg e herr
    rw [chainBlocksFrom, herr]

/-- Witness for C9: a peer whose every call is rejected yields a
`Failure` round with the gate released. -/
theorem peer_errors_demoted_witness :
    synchronize ⟨.error ⟨7⟩, fun _ => .error ⟨7⟩, fun _ => .error ⟨7⟩⟩ [] 1
        (initialUnprocessedElements ⟨1, 2, 3⟩) =
      (.Failure, initialUnprocessedElements ⟨1, 2, 3⟩, ⟨true, none, none⟩) :=
  (peer_errors_demoted ⟨.error ⟨7⟩, fun _ => .error ⟨7⟩, fun _ => .error ⟨7⟩⟩ [] 1
      (initialUnprocessedElements ⟨1, 2, 3⟩)).1
    ⟨[], 6, 0, true, false⟩ ⟨7⟩ true rfl rfl

end Catapult
